import Mathlib

/-!
Shallow embedding of the video-snapshot tool (src/main.py).

The program is a single-file OpenCV video player.  We model:

* the pure helper format_time_msec (Python round is round-half-to-even;
  float inputs are modelled as rationals);
* Python zero-padded integer formatting (the 04d / 02d / 03d / 06d format
  specifications), with an explicit decimal-digit printer so that length
  and digit-ness facts can be proved;
* the OpenCV capture handle as a list of frames plus a forward-only
  cursor and an opened flag;
* create_capture with its FFMPEG-to-default fallback;
* reopen_and_seek_to_frame (the linear re-decode used by step-backward);
* the key handlers of the main loop and the loop itself, driven by a
  list of inputs (window visibility plus the key pressed), returning the
  process exit code when the program terminates.

Printing is modelled by returning the list of printed lines; writing a
snapshot file is modelled by returning the list of file paths written.
-/

/-- Decimal digit character for a digit value below ten.  Values of ten or
more never occur in natDigits (the argument is a remainder mod ten). -/
def digitChar : Nat → Char
  | 0 => '0'
  | 1 => '1'
  | 2 => '2'
  | 3 => '3'
  | 4 => '4'
  | 5 => '5'
  | 6 => '6'
  | 7 => '7'
  | 8 => '8'
  | 9 => '9'
  | _ => '?'

/-- Fuel-based digit printer (structural recursion so that the kernel can
evaluate it).  The fuel-exhausted branch is unreachable for the fuel used
by natDigits. -/
def natDigitsGo : Nat → Nat → List Char
  | 0, _ => []
  | fuel + 1, n =>
    if n < 10 then [digitChar n]
    else natDigitsGo fuel (n / 10) ++ [digitChar (n % 10)]

/-- Decimal digit characters of a natural number, most significant first.
Models the digit sequence produced by Python when printing an integer. -/
def natDigits (n : Nat) : List Char := natDigitsGo (n + 1) n

/-- Left-pad a character list with zeros to the requested width (no-op when
already at least that wide), as Python zfill does on the digit string. -/
def zfill (width : Nat) (cs : List Char) : List Char :=
  List.replicate (width - cs.length) '0' ++ cs

/-- Python zero-padded integer formatting: the format specification 0wd.
The minus sign of a negative number counts towards the width. -/
def pyZeroPadInt (width : Nat) (n : Int) : String :=
  if 0 ≤ n then ⟨zfill width (natDigits n.toNat)⟩
  else ⟨'-' :: zfill (width - 1) (natDigits (-n).toNat)⟩

/-- Python round on a real input, modelled on the rationals: round half to
even.  int(round(x)) in the source equals this integer.  The comparisons
encode, in integer arithmetic on the numerator and (positive) denominator,
whether the fractional part q - floor q is below, above, or exactly 1/2. -/
def pythonRound (q : ℚ) : Int :=
  if 2 * (q.num - Rat.floor q * q.den) < (q.den : Int) then Rat.floor q
  else if (q.den : Int) < 2 * (q.num - Rat.floor q * q.den) then Rat.floor q + 1
  else if Rat.floor q % 2 = 0 then Rat.floor q else Rat.floor q + 1

/-- format_time_msec from src/main.py.  Python floor division and modulo
are Int.fdiv and Int.fmod; the float argument is modelled as a rational. -/
def format_time_msec (msec : ℚ) : String :=
  let total_ms : Int := pythonRound msec
  let total_seconds : Int := Int.fdiv total_ms 1000
  let ms : Int := Int.fmod total_ms 1000
  let minutes : Int := Int.fdiv total_seconds 60
  let seconds : Int := Int.fmod total_seconds 60
  pyZeroPadInt 4 minutes ++ "m" ++ pyZeroPadInt 2 seconds ++ "s" ++
    pyZeroPadInt 3 ms ++ "ms"

/-- A decoded frame, as raw bytes.  The source never inspects frame
contents, so any type with decidable equality would do. -/
abbrev Frame := List Nat

/-- Model of a cv2.VideoCapture handle: the decodable frame sequence of
the underlying file, a forward-only decode cursor, and the isOpened flag. -/
structure Cap where
  frames : List Frame
  pos : Nat
  opened : Bool
deriving DecidableEq, Repr

/-- cap.read(): when the handle is opened and a frame remains, return it
and advance the cursor; otherwise return no frame and leave the handle
unchanged (ret is False and the returned frame is None). -/
def Cap.read (c : Cap) : Option Frame × Cap :=
  if c.opened then
    match c.frames[c.pos]? with
    | some f => (some f, { c with pos := c.pos + 1 })
    | none => (none, c)
  else (none, c)

/-- Environment for one attempt at opening the video file: whether OpenCV
was built with FFMPEG (has_ffmpeg_support), whether an explicit CAP_FFMPEG
open yields an opened handle, whether a default-backend open yields an
opened handle, the decodable frame sequence of the file, the playback
position in milliseconds that cap.get(CAP_PROP_POS_MSEC) reports at each
cursor value, and whether writing a snapshot file succeeds. -/
structure Env where
  hasFFmpeg : Bool
  ffmpegOpens : Bool
  defaultOpens : Bool
  frames : List Frame
  posMsec : Nat → ℚ
  saveOk : Bool

/-- create_capture from src/main.py: try CAP_FFMPEG when FFMPEG support is
present, fall back to the default backend otherwise, reporting the backend
used.  The third component is the list of lines printed. -/
def create_capture (env : Env) : Cap × String × List String :=
  if env.hasFFmpeg && env.ffmpegOpens then
    ({ frames := env.frames, pos := 0, opened := true }, "FFMPEG", [])
  else if env.hasFFmpeg then
    ({ frames := env.frames, pos := 0, opened := env.defaultOpens }, "DEFAULT",
      ["FFMPEG バックエンドで開けませんでした。標準バックエンドにフォールバックします。"])
  else
    ({ frames := env.frames, pos := 0, opened := env.defaultOpens }, "DEFAULT", [])

/-- Whether create_capture produces an opened handle. -/
def capOpens (env : Env) : Bool :=
  if env.hasFFmpeg && env.ffmpegOpens then true else env.defaultOpens

/-- The backend label create_capture reports. -/
def backendLabel (env : Env) : String :=
  if env.hasFFmpeg && env.ffmpegOpens then "FFMPEG" else "DEFAULT"

/-- The lines create_capture prints. -/
def createMsgs (env : Env) : List String :=
  if env.hasFFmpeg && !env.ffmpegOpens then
    ["FFMPEG バックエンドで開けませんでした。標準バックエンドにフォールバックします。"]
  else []

/-- The while-loop of reopen_and_seek_to_frame: repeatedly call cap.read
until current_frame reaches target_frame_index (the remaining count is the
recursion argument) or a read fails.  In Python a failed read rebinds
frame to None before the break, so the held frame is the last value read,
and is None exactly when the loop broke early (or never ran).  Returns the
handle, the held frame, and the lines printed. -/
def seekLoop : Cap → Nat → Option Frame → Cap × Option Frame × List String
  | cap, 0, frame => (cap, frame, [])
  | cap, remaining + 1, _ =>
    match cap.read with
    | (none, cap') =>
      (cap', none, ["指定されたフレーム位置まで到達できませんでした。動画の最後かもしれません。"])
    | (some f, cap') => seekLoop cap' remaining (some f)

/-- reopen_and_seek_to_frame from src/main.py: reopen the file with
create_capture and linearly decode frames until the target index; on any
failure return no handle (the source returns the pair None, None).  The
second component is the list of lines printed. -/
def reopen_and_seek_to_frame (env : Env) (target_frame_index : Nat) :
    Option (Cap × Frame) × List String :=
  let (cap, _backend, msgs) := create_capture env
  if cap.opened = false then
    (none, msgs ++ ["動画ファイルを再オープンできませんでした。"])
  else
    let (cap', frame, loopMsgs) := seekLoop cap target_frame_index none
    match frame with
    | none => (none, msgs ++ loopMsgs)
    | some f => (some (cap', f), msgs ++ loopMsgs)

/-- Playback state of the main loop: the capture handle, the held frame,
the 1-based index of that frame, and the paused flag. -/
structure St where
  cap : Cap
  frame : Frame
  frame_index : Nat
  paused : Bool
deriving DecidableEq, Repr

/-- The key-a branch of the main loop (step backward one frame, only while
paused).  env describes the file as found on disk at reopen time.  Returns
the new state and the lines printed. -/
def handleA (env : Env) (s : St) : St × List String :=
  if s.paused then
    let target_index := max (s.frame_index - 1) 1
    if target_index = s.frame_index then (s, [])
    else
      match reopen_and_seek_to_frame env target_index with
      | (some (new_cap, new_frame), msgs) =>
        ({ s with cap := new_cap, frame := new_frame, frame_index := target_index },
          msgs ++ ["フレーム戻し: " ++ toString target_index])
      | (none, msgs) => (s, msgs)
  else (s, [])

/-- The key-d branch of the main loop (step forward one frame, only while
paused).  Returns the new state and the lines printed. -/
def handleD (s : St) : St × List String :=
  if s.paused then
    match s.cap.read with
    | (some new_frame, cap') =>
      ({ s with cap := cap', frame := new_frame, frame_index := s.frame_index + 1 },
        ["フレーム送り: " ++ toString (s.frame_index + 1)])
    | (none, cap') =>
      ({ s with cap := cap' }, ["これ以上先のフレームはありません。"])
  else (s, [])

/-- posixpath.join for two components, as used with the literal second
components (the snapshots directory and the snapshot filename).  The slash tests are
spelled on the character list so that they evaluate inside the kernel. -/
def joinPath (a b : String) : String :=
  if b.data.head? = some '/' then b
  else if a = "" then b
  else if a.data.getLast? = some '/' then a ++ b
  else a ++ "/" ++ b

/-- posixpath.dirname: everything before the last slash; a head that is
not all slashes loses its trailing slashes. -/
def dirname (p : String) : String :=
  let head := (p.data.reverse.dropWhile (fun c => c ≠ '/')).reverse
  if head ≠ [] ∧ head.any (fun c => c ≠ '/') then
    ⟨(head.reverse.dropWhile (fun c => c = '/')).reverse⟩
  else ⟨head⟩

/-- posixpath.basename: everything after the last slash. -/
def basename (p : String) : String :=
  ⟨(p.data.reverse.takeWhile (fun c => c ≠ '/')).reverse⟩

/-- First component of posixpath.splitext on a slash-free name: drop the
suffix starting at the last dot, unless every character before that dot
is itself a dot (so a leading-dot name keeps its dots). -/
def splitextFst (s : String) : String :=
  let cs := s.data
  let extRevLen := (cs.reverse.takeWhile (fun c => c ≠ '.')).length
  if extRevLen = cs.length then s
  else
    let dotIndex := cs.length - extRevLen - 1
    if (cs.take dotIndex).any (fun c => c ≠ '.') then ⟨cs.take dotIndex⟩ else s

/-- os.path.abspath, relative to a current working directory.  Path
normalisation beyond prefixing the working directory is not modelled; the
paths in this development are already normal. -/
def abspath (cwd p : String) : String :=
  if p.data.head? = some '/' then p else joinPath cwd p

/-- Paths of the run: the working directory and the video path given on
the command line or chosen in the dialog. -/
structure Ctx where
  cwd : String
  video_path : String

/-- base_dir of main: the directory containing the video. -/
def baseDir (ctx : Ctx) : String := dirname (abspath ctx.cwd ctx.video_path)

/-- output_dir of main: the snapshots subdirectory next to the video. -/
def outputDir (ctx : Ctx) : String := joinPath (baseDir ctx) "snapshots"

/-- base_name of the snapshot branch: the video file name without its
directory and extension. -/
def baseName (ctx : Ctx) : String := splitextFst (basename ctx.video_path)

/-- The snapshot file name built in the key-s branch of main. -/
def snapshotFilename (base_name time_str : String) (frame_index : Nat) : String :=
  base_name ++ "_" ++ time_str ++ "_" ++ pyZeroPadInt 6 (frame_index : Int) ++ ".png"

/-- Consume exactly the given number of decimal digits from the front of a
character list, returning the rest. -/
def expectDigits : Nat → List Char → Option (List Char)
  | 0, cs => some cs
  | _ + 1, [] => none
  | k + 1, c :: cs => if c.isDigit then expectDigits k cs else none

/-- Consume exactly the given literal characters from the front of a
character list, returning the rest. -/
def expectChars : List Char → List Char → Option (List Char)
  | [], cs => some cs
  | _ :: _, [] => none
  | l :: ls, c :: cs => if c = l then expectChars ls cs else none

/-- Whether a file name has exactly the documented snapshot shape for the
given video base name: base, underscore, four digits, m, two digits, s,
three digits, ms, underscore, six digits, and the png extension. -/
def matchesSnapshotPattern (base name : String) : Bool :=
  (do
    let r1 ← expectChars (base.data ++ ['_']) name.data
    let r2 ← expectDigits 4 r1
    let r3 ← expectChars ['m'] r2
    let r4 ← expectDigits 2 r3
    let r5 ← expectChars ['s'] r4
    let r6 ← expectDigits 3 r5
    let r7 ← expectChars ['m', 's', '_'] r6
    let r8 ← expectDigits 6 r7
    let r9 ← expectChars ['.', 'p', 'n', 'g'] r8
    if r9 = [] then some () else none).isSome

/-- The keys the main loop distinguishes (other covers every other key
code returned by waitKey). -/
inductive Key where
  | q | space | snap | a | d | r | rBig | other
deriving DecidableEq, Repr

/-- One iteration worth of outside input: whether the window is still
visible, and the key waitKey returned (none models the code -1). -/
structure Input where
  visible : Bool
  key : Option Key
deriving DecidableEq, Repr

/-- Result of one iteration of the main loop: either continue with a new
state, or break out of the loop.  msgs are the lines printed, writes the
paths of snapshot files written during the iteration. -/
inductive StepOut where
  | cont (s : St) (msgs : List String) (writes : List String)
  | halt (msgs : List String)
deriving DecidableEq, Repr

/-- One iteration of the while-loop of main: check window visibility,
advance a frame when playing (breaking at end of stream), then dispatch
the key.  Rendering and window-geometry operations have no effect on the
playback state and are not modelled beyond leaving the state unchanged. -/
def stepIter (env : Env) (ctx : Ctx) (inp : Input) (s : St) : StepOut :=
  if inp.visible = false then .halt ["ウィンドウが閉じられました。終了します。"]
  else
    match (if s.paused then some (s, ([] : List String))
           else
             match s.cap.read with
             | (none, _) => none
             | (some f, cap') =>
               some ({ s with cap := cap', frame := f, frame_index := s.frame_index + 1 },
                 ([] : List String))) with
    | none => .halt ["動画の最後まで再生しました。"]
    | some (s1, _) =>
      match inp.key with
      | none => .cont s1 [] []
      | some Key.q => .halt ["終了します。"]
      | some Key.space =>
        .cont { s1 with paused := !s1.paused }
          [if !s1.paused then "一時停止" else "再生再開"] []
      | some Key.snap =>
        let time_str := format_time_msec (env.posMsec s1.cap.pos)
        let filename := snapshotFilename (baseName ctx) time_str s1.frame_index
        let filepath := joinPath (outputDir ctx) filename
        if env.saveOk then
          .cont s1 ["スナップショット保存: " ++ filepath] [filepath]
        else
          .cont s1 ["スナップショット保存に失敗しました。"] []
      | some Key.a =>
        match handleA env s1 with
        | (s2, msgs) => .cont s2 msgs []
      | some Key.d =>
        match handleD s1 with
        | (s2, msgs) => .cont s2 msgs []
      | some Key.r => .cont s1 [] []
      | some Key.rBig => .cont s1 [] []
      | some Key.other => .cont s1 [] []

/-- Run the main loop on a list of iteration inputs.  some 0 is the exit
code of a run whose loop broke (main then releases the handle and returns,
so the process exits with status 0); none means the inputs were exhausted
with the loop still running. -/
def runLoop (env : Env) (ctx : Ctx) : List Input → St → Option Nat
  | [], _ => none
  | inp :: rest, s =>
    match stepIter env ctx inp s with
    | .halt _ => some 0
    | .cont s' _ _ => runLoop env ctx rest s'

/-- Outside conditions of program start-up: the optional command-line
path and whether it exists, the dialog result when no argument was given
(none models a cancelled dialog or an empty selection), whether the
resolved path exists at the second check in main, and the open/decode
environment. -/
structure SetupEnv where
  argPath : Option String
  argPathExists : Bool
  dialogResult : Option String
  pathExists : Bool
  env : Env

/-- resolve_video_path_from_args_or_dialog from src/main.py. -/
def resolve_video_path (se : SetupEnv) : Option String :=
  match se.argPath with
  | some path => if se.argPathExists then some path else none
  | none => se.dialogResult

/-- The part of main before the interactive loop: resolve the path, check
it exists, open the capture, decode the first frame.  Any failure calls
sys.exit(1), modelled as the error value 1. -/
def mainSetup (se : SetupEnv) : Except Nat St :=
  match resolve_video_path se with
  | none => .error 1
  | some _path =>
    if se.pathExists = false then .error 1
    else
      let (cap, _backend, _msgs) := create_capture se.env
      if cap.opened = false then .error 1
      else
        match cap.read with
        | (none, _) => .error 1
        | (some f, cap') => .ok { cap := cap', frame := f, frame_index := 1, paused := true }

/-- Whole-program run on a list of loop inputs: the exit status of the
process, or none when the inputs end with the loop still running. -/
def runMain (se : SetupEnv) (ctx : Ctx) (inputs : List Input) : Option Nat :=
  match mainSetup se with
  | .error c => some c
  | .ok st => runLoop se.env ctx inputs st

/-- The fatal set-up failures of main: no file selected or the given path
not found, the resolved path gone at the second check, no backend able to
open the file, or the first frame undecodable. -/
def fatalB (se : SetupEnv) : Bool :=
  (resolve_video_path se).isNone || !se.pathExists || !capOpens se.env ||
    se.env.frames.isEmpty

theorem read_none_eq (c : Cap) (h : (c.read).1 = none) : c.read = (none, c) := by
  unfold Cap.read at h ⊢
  cases ho : c.opened with
  | false => simp [ho]
  | true =>
    simp only [ho, if_true]
    cases hg : c.frames[c.pos]? with
    | none => simp
    | some f => simp [ho, hg] at h

theorem read_some (c : Cap) (f : Frame) (ho : c.opened = true)
    (hg : c.frames[c.pos]? = some f) :
    c.read = (some f, { c with pos := c.pos + 1 }) := by
  unfold Cap.read
  simp [ho, hg]

theorem create_capture_eq (env : Env) :
    create_capture env =
      ({ frames := env.frames, pos := 0, opened := capOpens env },
        backendLabel env, createMsgs env) := by
  unfold create_capture capOpens backendLabel createMsgs
  cases h1 : env.hasFFmpeg <;> cases h2 : env.ffmpegOpens <;> simp

theorem seekLoop_zero (cap : Cap) (frame : Option Frame) :
    seekLoop cap 0 frame = (cap, frame, []) := rfl

theorem seekLoop_succ_some (cap cap' : Cap) (f : Frame) (k : Nat) (prev : Option Frame)
    (h : cap.read = (some f, cap')) :
    seekLoop cap (k + 1) prev = seekLoop cap' k (some f) := by
  have hstep : seekLoop cap (k + 1) prev =
      (match cap.read with
       | (none, cap') =>
         (cap', none, ["指定されたフレーム位置まで到達できませんでした。動画の最後かもしれません。"])
       | (some f, cap') => seekLoop cap' k (some f)) := rfl
  rw [hstep, h]

theorem seekLoop_succ_none (cap cap' : Cap) (k : Nat) (prev : Option Frame)
    (h : cap.read = (none, cap')) :
    seekLoop cap (k + 1) prev =
      (cap', none,
        ["指定されたフレーム位置まで到達できませんでした。動画の最後かもしれません。"]) := by
  have hstep : seekLoop cap (k + 1) prev =
      (match cap.read with
       | (none, cap') =>
         (cap', none, ["指定されたフレーム位置まで到達できませんでした。動画の最後かもしれません。"])
       | (some f, cap') => seekLoop cap' k (some f)) := rfl
  rw [hstep, h]

theorem seekLoop_reads (frames : List Frame) (p k : Nat) (prev : Option Frame)
    (hk : 1 ≤ k) (hlen : p + k ≤ frames.length) :
    seekLoop ⟨frames, p, true⟩ k prev =
      (⟨frames, p + k, true⟩, some (frames.getD (p + k - 1) []), []) := by
  induction k generalizing p prev with
  | zero => omega
  | succ k ih =>
    have hp : p < frames.length := by omega
    have hread : (⟨frames, p, true⟩ : Cap).read =
        (some (frames.get ⟨p, hp⟩), ⟨frames, p + 1, true⟩) := by
      apply read_some
      · rfl
      · simp [List.getElem?_eq_getElem hp]
    rw [seekLoop_succ_some _ _ _ _ _ hread]
    cases k with
    | zero =>
      rw [seekLoop_zero]
      simp [List.getD_eq_getElem?_getD, List.getElem?_eq_getElem hp]
    | succ k =>
      rw [ih (p + 1) (some (frames.get ⟨p, hp⟩)) (by omega) (by omega)]
      have h1 : p + 1 + (k + 1) = p + (k + 1 + 1) := by omega
      rw [h1]

theorem seekLoop_eos (frames : List Frame) (p k : Nat) (prev : Option Frame)
    (hk : 1 ≤ k) (hp : p ≤ frames.length) (hlen : frames.length < p + k) :
    seekLoop ⟨frames, p, true⟩ k prev =
      (⟨frames, frames.length, true⟩, none,
        ["指定されたフレーム位置まで到達できませんでした。動画の最後かもしれません。"]) := by
  induction k generalizing p prev with
  | zero => omega
  | succ k ih =>
    by_cases hpl : p < frames.length
    · have hread : (⟨frames, p, true⟩ : Cap).read =
          (some (frames.get ⟨p, hpl⟩), ⟨frames, p + 1, true⟩) := by
        apply read_some
        · rfl
        · simp [List.getElem?_eq_getElem hpl]
      rw [seekLoop_succ_some _ _ _ _ _ hread]
      exact ih (p + 1) _ (by omega) (by omega) (by omega)
    · have hpe : p = frames.length := by omega
      have hread : (⟨frames, p, true⟩ : Cap).read = (none, ⟨frames, p, true⟩) := by
        apply read_none_eq
        unfold Cap.read
        simp [List.getElem?_eq_none (by omega : frames.length ≤ p)]
      rw [seekLoop_succ_none _ _ _ _ hread, hpe]

theorem reopen_ok (env : Env) (t : Nat) (hopen : capOpens env = true)
    (ht : 1 ≤ t) (hlen : t ≤ env.frames.length) :
    reopen_and_seek_to_frame env t =
      (some (⟨env.frames, t, true⟩, env.frames.getD (t - 1) []), createMsgs env) := by
  unfold reopen_and_seek_to_frame
  rw [create_capture_eq]
  simp only [hopen]
  rw [seekLoop_reads env.frames 0 t none ht (by omega)]
  simp

theorem reopen_fail_closed (env : Env) (t : Nat) (hopen : capOpens env = false) :
    reopen_and_seek_to_frame env t =
      (none, createMsgs env ++ ["動画ファイルを再オープンできませんでした。"]) := by
  unfold reopen_and_seek_to_frame
  rw [create_capture_eq]
  simp [hopen]

theorem reopen_fail_short (env : Env) (t : Nat) (hopen : capOpens env = true)
    (ht : 1 ≤ t) (hlen : env.frames.length < t) :
    reopen_and_seek_to_frame env t =
      (none, createMsgs env ++
        ["指定されたフレーム位置まで到達できませんでした。動画の最後かもしれません。"]) := by
  unfold reopen_and_seek_to_frame
  rw [create_capture_eq]
  simp only [hopen]
  rw [seekLoop_eos env.frames 0 t none ht (by omega) (by omega)]
  simp

theorem handleA_noop (env : Env) (s : St) (hp : s.paused = true)
    (h1 : s.frame_index = 1) : handleA env s = (s, []) := by
  unfold handleA
  simp [hp, h1]

theorem handleA_success (env : Env) (s : St) (hp : s.paused = true)
    (h2 : 2 ≤ s.frame_index) (hopen : capOpens env = true)
    (hlen : s.frame_index - 1 ≤ env.frames.length) :
    handleA env s =
      ({ cap := ⟨env.frames, s.frame_index - 1, true⟩,
         frame := env.frames.getD (s.frame_index - 1 - 1) [],
         frame_index := s.frame_index - 1, paused := s.paused },
        createMsgs env ++ ["フレーム戻し: " ++ toString (s.frame_index - 1)]) := by
  unfold handleA
  have hmax : max (s.frame_index - 1) 1 = s.frame_index - 1 := by omega
  have hne : ¬(s.frame_index - 1 = s.frame_index) := by omega
  simp only [hp, if_true, hmax, hne, if_false]
  rw [reopen_ok env (s.frame_index - 1) hopen (by omega) hlen]

theorem handleA_fail (env : Env) (s : St) (msgs : List String) (hp : s.paused = true)
    (h2 : 2 ≤ s.frame_index)
    (hre : reopen_and_seek_to_frame env (s.frame_index - 1) = (none, msgs)) :
    handleA env s = (s, msgs) := by
  unfold handleA
  have hmax : max (s.frame_index - 1) 1 = s.frame_index - 1 := by omega
  have hne : ¬(s.frame_index - 1 = s.frame_index) := by omega
  simp only [hp, if_true, hmax, hne, if_false]
  rw [hre]

theorem handleD_some (s : St) (f : Frame) (cap' : Cap) (hp : s.paused = true)
    (hread : s.cap.read = (some f, cap')) :
    handleD s =
      ({ s with cap := cap', frame := f, frame_index := s.frame_index + 1 },
        ["フレーム送り: " ++ toString (s.frame_index + 1)]) := by
  unfold handleD
  rw [hread]
  simp [hp]

theorem handleD_none (s : St) (hp : s.paused = true) (hread : (s.cap.read).1 = none) :
    handleD s = (s, ["これ以上先のフレームはありません。"]) := by
  obtain ⟨cap, frame, fi, paused⟩ := s
  simp only [St.paused] at hp
  subst hp
  have hr := read_none_eq _ hread
  simp only [St.cap] at hr
  unfold handleD
  rw [hr]
  simp

theorem handlers_skip_unpaused (env : Env) (s : St) (hp : s.paused = false) :
    handleA env s = (s, []) ∧ handleD s = (s, []) := by
  unfold handleA handleD
  simp [hp]

theorem stepIter_invisible (env : Env) (ctx : Ctx) (k : Option Key) (s : St) :
    stepIter env ctx ⟨false, k⟩ s = .halt ["ウィンドウが閉じられました。終了します。"] := by
  unfold stepIter
  simp

theorem stepIter_paused_dispatch (env : Env) (ctx : Ctx) (k : Option Key) (s : St)
    (hp : s.paused = true) :
    stepIter env ctx ⟨true, k⟩ s =
      (match k with
       | none => .cont s [] []
       | some Key.q => .halt ["終了します。"]
       | some Key.space =>
         .cont { s with paused := !s.paused } [if !s.paused then "一時停止" else "再生再開"] []
       | some Key.snap =>
         let time_str := format_time_msec (env.posMsec s.cap.pos)
         let filename := snapshotFilename (baseName ctx) time_str s.frame_index
         let filepath := joinPath (outputDir ctx) filename
         if env.saveOk then
           .cont s ["スナップショット保存: " ++ filepath] [filepath]
         else
           .cont s ["スナップショット保存に失敗しました。"] []
       | some Key.a =>
         match handleA env s with
         | (s2, msgs) => .cont s2 msgs []
       | some Key.d =>
         match handleD s with
         | (s2, msgs) => .cont s2 msgs []
       | some Key.r => .cont s [] []
       | some Key.rBig => .cont s [] []
       | some Key.other => .cont s [] []) := by
  unfold stepIter
  simp [hp]

theorem stepIter_q_halts (env : Env) (ctx : Ctx) (s : St) :
    ∃ m, stepIter env ctx ⟨true, some Key.q⟩ s = .halt m := by
  cases hp : s.paused with
  | true =>
    exact ⟨["終了します。"], by rw [stepIter_paused_dispatch env ctx (some Key.q) s hp]⟩
  | false =>
    cases hr : s.cap.read with
    | mk o c =>
      cases o with
      | none => exact ⟨["動画の最後まで再生しました。"], by unfold stepIter; simp [hp, hr]⟩
      | some f => exact ⟨["終了します。"], by unfold stepIter; simp [hp, hr]⟩

theorem runLoop_zero_or_none (env : Env) (ctx : Ctx) :
    ∀ (inputs : List Input) (s : St),
      runLoop env ctx inputs s = none ∨ runLoop env ctx inputs s = some 0 := by
  intro inputs
  induction inputs with
  | nil => intro s; left; rfl
  | cons i rest ih =>
    intro s
    cases h : stepIter env ctx i s with
    | halt m => right; unfold runLoop; rw [h]
    | cont s' m w => unfold runLoop; rw [h]; exact ih s'

theorem runLoop_append_halt (env : Env) (ctx : Ctx) (inp : Input)
    (h : ∀ s : St, ∃ m, stepIter env ctx inp s = .halt m) :
    ∀ (inputs : List Input) (s : St), runLoop env ctx (inputs ++ [inp]) s = some 0 := by
  intro inputs
  induction inputs with
  | nil =>
    intro s
    obtain ⟨m, hm⟩ := h s
    rw [List.nil_append]
    unfold runLoop
    rw [hm]
  | cons i rest ih =>
    intro s
    rw [List.cons_append]
    cases hst : stepIter env ctx i s with
    | halt m => unfold runLoop; rw [hst]
    | cont s' m w => unfold runLoop; rw [hst]; exact ih s'

theorem mainSetup_fatal (se : SetupEnv) (h : fatalB se = true) :
    mainSetup se = .error 1 := by
  unfold mainSetup
  unfold fatalB at h
  cases hres : resolve_video_path se with
  | none => rfl
  | some p =>
    rw [hres] at h
    simp only [Option.isNone_some, Bool.false_or] at h
    cases hpe : se.pathExists with
    | false => simp [hpe]
    | true =>
      rw [hpe] at h
      simp only [Bool.not_true, Bool.false_or] at h
      rw [create_capture_eq]
      cases hco : capOpens se.env with
      | false => simp [hco]
      | true =>
        rw [hco] at h
        simp only [Bool.not_true, Bool.false_or] at h
        have hnil : se.env.frames = [] := by simpa using h
        simp [hco, hnil, Cap.read]

theorem mainSetup_ok (se : SetupEnv) (h : fatalB se = false) :
    mainSetup se =
      .ok ⟨⟨se.env.frames, 1, true⟩, se.env.frames.getD 0 [], 1, true⟩ := by
  unfold mainSetup
  unfold fatalB at h
  simp only [Bool.or_eq_false_iff] at h
  obtain ⟨⟨⟨hres, hpe⟩, hco⟩, hemp⟩ := h
  cases hr : resolve_video_path se with
  | none => rw [hr] at hres; simp at hres
  | some p =>
    have hpe' : se.pathExists = true := by
      cases hx : se.pathExists
      · rw [hx] at hpe; simp at hpe
      · rfl
    have hco' : capOpens se.env = true := by
      cases hx : capOpens se.env
      · rw [hx] at hco; simp at hco
      · rfl
    rw [create_capture_eq]
    cases hfr : se.env.frames with
    | nil => rw [hfr] at hemp; simp at hemp
    | cons f rest => simp [hpe', hco', hfr, Cap.read]

theorem pythonRound_le_half (q : ℚ) : |(pythonRound q : ℚ) - q| ≤ 1 / 2 := by
  have hfl : (Rat.floor q : ℚ) ≤ q := Int.floor_le q
  have hfl1 : q < Rat.floor q + 1 := Int.lt_floor_add_one q
  have hdenQ : (0 : ℚ) < (q.den : ℚ) := by exact_mod_cast q.pos
  have hden0 : ((q.den : ℚ)) ≠ 0 := ne_of_gt hdenQ
  have hnum : (q.num : ℚ) = q * (q.den : ℚ) := (div_eq_iff hden0).mp (Rat.num_div_den q)
  have key : ((2 * (q.num - Rat.floor q * q.den) : ℤ) : ℚ) =
      (q - (Rat.floor q : ℚ)) * (2 * (q.den : ℚ)) := by
    push_cast
    rw [hnum]
    ring
  unfold pythonRound
  split_ifs with hc1 hc2 hc3
  · have hq1 : ((2 * (q.num - Rat.floor q * q.den) : ℤ) : ℚ) < ((q.den : ℤ) : ℚ) := by
      exact_mod_cast hc1
    rw [key] at hq1
    push_cast at hq1
    have hlt : q - (Rat.floor q : ℚ) < 1 / 2 := by nlinarith
    rw [abs_le]
    constructor <;> linarith
  · have hq1 : ((q.den : ℤ) : ℚ) < ((2 * (q.num - Rat.floor q * q.den) : ℤ) : ℚ) := by
      exact_mod_cast hc2
    rw [key] at hq1
    push_cast at hq1
    have hgt : 1 / 2 < q - (Rat.floor q : ℚ) := by nlinarith
    rw [abs_le]
    push_cast
    constructor <;> linarith
  · have heq : ((2 * (q.num - Rat.floor q * q.den) : ℤ) : ℚ) = ((q.den : ℤ) : ℚ) := by
      exact_mod_cast le_antisymm (not_lt.mp hc2) (not_lt.mp hc1)
    rw [key] at heq
    push_cast at heq
    have hhalf : q - (Rat.floor q : ℚ) = 1 / 2 := by
      have h2den : (0 : ℚ) < 2 * (q.den : ℚ) := by positivity
      exact mul_right_cancel₀ (ne_of_gt h2den) (by linear_combination heq)
    rw [abs_le]
    constructor <;> linarith
  · have heq : ((2 * (q.num - Rat.floor q * q.den) : ℤ) : ℚ) = ((q.den : ℤ) : ℚ) := by
      exact_mod_cast le_antisymm (not_lt.mp hc2) (not_lt.mp hc1)
    rw [key] at heq
    push_cast at heq
    have hhalf : q - (Rat.floor q : ℚ) = 1 / 2 := by
      have h2den : (0 : ℚ) < 2 * (q.den : ℚ) := by positivity
      exact mul_right_cancel₀ (ne_of_gt h2den) (by linear_combination heq)
    rw [abs_le]
    push_cast
    constructor <;> linarith

theorem rat_floor_eq_int_floor (q : ℚ) : Rat.floor q = ⌊q⌋ := rfl

theorem pythonRound_intCast (n : ℤ) : pythonRound ((n : ℤ) : ℚ) = n := by
  unfold pythonRound
  rw [rat_floor_eq_int_floor]
  rw [Int.floor_intCast]
  simp [Rat.num_intCast, Rat.den_intCast]

theorem digitChar_isDigit {d : Nat} (h : d < 10) : (digitChar d).isDigit = true := by
  interval_cases d <;> decide

theorem natDigitsGo_spec :
    ∀ (fuel n k : Nat), n < fuel → n < 10 ^ k → 1 ≤ k →
      (natDigitsGo fuel n).length ≤ k ∧ ∀ c ∈ natDigitsGo fuel n, c.isDigit = true := by
  intro fuel
  induction fuel with
  | zero => intro n k h; omega
  | succ fuel ih =>
    intro n k hfuel hk h1
    by_cases h10 : n < 10
    · unfold natDigitsGo
      rw [if_pos h10]
      refine ⟨by simpa using h1, ?_⟩
      intro c hc
      simp only [List.mem_singleton] at hc
      subst hc
      exact digitChar_isDigit h10
    · have hk2 : 2 ≤ k := by
        by_contra hcon
        have hk1 : k = 1 := by omega
        subst hk1
        simp at hk
        omega
      have hdiv : n / 10 < fuel := by
        have := Nat.div_lt_self (by omega : 0 < n) (by omega : 1 < 10)
        omega
      have hdivk : n / 10 < 10 ^ (k - 1) := by
        have hpow : 10 ^ k = 10 ^ (k - 1) * 10 := by
          rw [← pow_succ]
          congr 1
          omega
        rw [Nat.div_lt_iff_lt_mul (by omega : 0 < 10)]
        omega
      obtain ⟨ihlen, ihdig⟩ := ih (n / 10) (k - 1) hdiv hdivk (by omega)
      unfold natDigitsGo
      rw [if_neg h10]
      constructor
      · rw [List.length_append, List.length_singleton]
        omega
      · intro c hc
        rcases List.mem_append.mp hc with hmem | hmem
        · exact ihdig c hmem
        · simp only [List.mem_singleton] at hmem
          subst hmem
          exact digitChar_isDigit (Nat.mod_lt _ (by omega))

theorem natDigits_spec (n k : Nat) (hk : n < 10 ^ k) (h1 : 1 ≤ k) :
    (natDigits n).length ≤ k ∧ ∀ c ∈ natDigits n, c.isDigit = true :=
  natDigitsGo_spec (n + 1) n k (by omega) hk h1

theorem zfill_len (w : Nat) (cs : List Char) (h : cs.length ≤ w) :
    (zfill w cs).length = w := by
  simp [zfill]
  omega

theorem zfill_digits (w : Nat) (cs : List Char) (h : ∀ c ∈ cs, c.isDigit = true) :
    ∀ c ∈ zfill w cs, c.isDigit = true := by
  intro c hc
  rcases List.mem_append.mp hc with hmem | hmem
  · have : c = '0' := List.eq_of_mem_replicate hmem
    subst this
    decide
  · exact h c hmem

theorem pyZeroPadInt_spec (w : Nat) (n : Int) (h0 : 0 ≤ n) (hlt : n < (10 : ℤ) ^ w)
    (hw : 1 ≤ w) :
    (pyZeroPadInt w n).data.length = w ∧
      ∀ c ∈ (pyZeroPadInt w n).data, c.isDigit = true := by
  have hcast : ((n.toNat : ℤ)) = n := Int.toNat_of_nonneg h0
  have hn : n.toNat < 10 ^ w := by
    have h2 : ((10 ^ w : ℕ) : ℤ) = (10 : ℤ) ^ w := by push_cast; ring
    have h3 : ((n.toNat : ℤ)) < ((10 ^ w : ℕ) : ℤ) := by rw [hcast, h2]; exact hlt
    exact_mod_cast h3
  obtain ⟨hlen, hdig⟩ := natDigits_spec n.toNat w hn hw
  unfold pyZeroPadInt
  rw [if_pos h0]
  exact ⟨zfill_len _ _ hlen, zfill_digits _ _ hdig⟩

theorem expectChars_append (ls rest : List Char) :
    expectChars ls (ls ++ rest) = some rest := by
  induction ls with
  | nil => rfl
  | cons l ls ih =>
    unfold expectChars
    simp [ih]

theorem expectDigits_append (ds rest : List Char) (h : ∀ c ∈ ds, c.isDigit = true) :
    expectDigits ds.length (ds ++ rest) = some rest := by
  induction ds with
  | nil => rfl
  | cons c cs ih =>
    unfold expectDigits
    rw [List.length_cons]
    simp only [List.cons_append]
    rw [if_pos (h c (by simp))]
    exact ih (fun x hx => h x (by simp [hx]))

theorem str_data_append (a b : String) : (a ++ b).data = a.data ++ b.data := by
  cases a
  cases b
  rfl

theorem str_eq_of_data (a b : String) (h : a.data = b.data) : a = b := by
  cases a
  cases b
  exact congrArg String.mk h

theorem expectChars_self (ls : List Char) : expectChars ls ls = some [] := by
  have h := expectChars_append ls []
  simpa using h

theorem matches_blocks (base : String) (d4 d2 d3 d6 : List Char)
    (h4l : d4.length = 4) (h4d : ∀ c ∈ d4, c.isDigit = true)
    (h2l : d2.length = 2) (h2d : ∀ c ∈ d2, c.isDigit = true)
    (h3l : d3.length = 3) (h3d : ∀ c ∈ d3, c.isDigit = true)
    (h6l : d6.length = 6) (h6d : ∀ c ∈ d6, c.isDigit = true) :
    matchesSnapshotPattern base
      ⟨(base.data ++ ['_']) ++
        (d4 ++ (['m'] ++ (d2 ++ (['s'] ++
          (d3 ++ (['m', 's', '_'] ++ (d6 ++ ['.', 'p', 'n', 'g'])))))))⟩ = true := by
  unfold matchesSnapshotPattern
  rw [show ((⟨(base.data ++ ['_']) ++
        (d4 ++ (['m'] ++ (d2 ++ (['s'] ++
          (d3 ++ (['m', 's', '_'] ++ (d6 ++ ['.', 'p', 'n', 'g'])))))))⟩ : String)).data =
      (base.data ++ ['_']) ++
        (d4 ++ (['m'] ++ (d2 ++ (['s'] ++
          (d3 ++ (['m', 's', '_'] ++ (d6 ++ ['.', 'p', 'n', 'g']))))))) from rfl]
  rw [expectChars_append (base.data ++ ['_'])]
  simp only [Option.bind_eq_bind, Option.some_bind]
  rw [← h4l, expectDigits_append d4 _ h4d]
  simp only [Option.some_bind]
  rw [expectChars_append ['m']]
  simp only [Option.some_bind]
  rw [← h2l, expectDigits_append d2 _ h2d]
  simp only [Option.some_bind]
  rw [expectChars_append ['s']]
  simp only [Option.some_bind]
  rw [← h3l, expectDigits_append d3 _ h3d]
  simp only [Option.some_bind]
  rw [expectChars_append ['m', 's', '_']]
  simp only [Option.some_bind]
  rw [← h6l, expectDigits_append d6 _ h6d]
  simp only [Option.some_bind]
  rw [expectChars_self ['.', 'p', 'n', 'g']]
  simp

theorem snapshotFilename_data (base : String) (msec : ℚ) (idx : Nat) :
    (snapshotFilename base (format_time_msec msec) idx).data =
      (base.data ++ ['_']) ++
        ((pyZeroPadInt 4 (Int.fdiv (Int.fdiv (pythonRound msec) 1000) 60)).data ++
          (['m'] ++
            ((pyZeroPadInt 2 (Int.fmod (Int.fdiv (pythonRound msec) 1000) 60)).data ++
              (['s'] ++
                ((pyZeroPadInt 3 (Int.fmod (pythonRound msec) 1000)).data ++
                  (['m', 's', '_'] ++
                    ((pyZeroPadInt 6 (idx : Int)).data ++
                      ['.', 'p', 'n', 'g']))))))) := by
  have hu : "_".data = ['_'] := rfl
  have hm : "m".data = ['m'] := rfl
  have hs : "s".data = ['s'] := rfl
  have hms : "ms".data = ['m', 's'] := rfl
  have hpng : ".png".data = ['.', 'p', 'n', 'g'] := rfl
  unfold snapshotFilename format_time_msec
  simp [str_data_append, hu, hm, hs, hms, hpng, List.append_assoc]

theorem pattern_of_bounds (base : String) (msec : ℚ) (idx : Nat)
    (h0 : 0 ≤ pythonRound msec) (hm : pythonRound msec < 600000000)
    (hi : idx < 1000000) :
    matchesSnapshotPattern base
      (snapshotFilename base (format_time_msec msec) idx) = true := by
  have hp4 : (10 : ℤ) ^ 4 = 10000 := by norm_num
  have hp2 : (10 : ℤ) ^ 2 = 100 := by norm_num
  have hp3 : (10 : ℤ) ^ 3 = 1000 := by norm_num
  have hp6 : (10 : ℤ) ^ 6 = 1000000 := by norm_num
  have hfd1 : Int.fdiv (pythonRound msec) 1000 = pythonRound msec / 1000 :=
    Int.fdiv_eq_ediv _ (by norm_num)
  have hfm1 : Int.fmod (pythonRound msec) 1000 = pythonRound msec % 1000 :=
    Int.fmod_eq_emod _ (by norm_num)
  have hfd2 : Int.fdiv (Int.fdiv (pythonRound msec) 1000) 60 =
      pythonRound msec / 1000 / 60 := by
    rw [hfd1]
    exact Int.fdiv_eq_ediv _ (by norm_num)
  have hfm2 : Int.fmod (Int.fdiv (pythonRound msec) 1000) 60 =
      pythonRound msec / 1000 % 60 := by
    rw [hfd1]
    exact Int.fmod_eq_emod _ (by norm_num)
  obtain ⟨l4, d4⟩ := pyZeroPadInt_spec 4 (Int.fdiv (Int.fdiv (pythonRound msec) 1000) 60)
    (by rw [hfd2]; omega) (by rw [hfd2, hp4]; omega) (by norm_num)
  obtain ⟨l2, d2⟩ := pyZeroPadInt_spec 2 (Int.fmod (Int.fdiv (pythonRound msec) 1000) 60)
    (by rw [hfm2]; omega) (by rw [hfm2, hp2]; omega) (by norm_num)
  obtain ⟨l3, d3⟩ := pyZeroPadInt_spec 3 (Int.fmod (pythonRound msec) 1000)
    (by rw [hfm1]; omega) (by rw [hfm1, hp3]; omega) (by norm_num)
  obtain ⟨l6, d6⟩ := pyZeroPadInt_spec 6 ((idx : Nat) : Int)
    (by omega) (by rw [hp6]; omega) (by norm_num)
  have hmb := matches_blocks base
    (pyZeroPadInt 4 (Int.fdiv (Int.fdiv (pythonRound msec) 1000) 60)).data
    (pyZeroPadInt 2 (Int.fmod (Int.fdiv (pythonRound msec) 1000) 60)).data
    (pyZeroPadInt 3 (Int.fmod (pythonRound msec) 1000)).data
    (pyZeroPadInt 6 ((idx : Nat) : Int)).data
    l4 d4 l2 d2 l3 d3 l6 d6
  have hname : snapshotFilename base (format_time_msec msec) idx =
      ⟨(base.data ++ ['_']) ++
        ((pyZeroPadInt 4 (Int.fdiv (Int.fdiv (pythonRound msec) 1000) 60)).data ++
          (['m'] ++
            ((pyZeroPadInt 2 (Int.fmod (Int.fdiv (pythonRound msec) 1000) 60)).data ++
              (['s'] ++
                ((pyZeroPadInt 3 (Int.fmod (pythonRound msec) 1000)).data ++
                  (['m', 's', '_'] ++
                    ((pyZeroPadInt 6 (idx : Int)).data ++
                      ['.', 'p', 'n', 'g'])))))))⟩ :=
    str_eq_of_data _ _ (snapshotFilename_data base msec idx)
  rw [hname]
  exact hmb

/-- Claim C1: format_time_msec maps a millisecond count to a fixed-layout
string (the three documented examples), and a fractional input is rounded
to the nearest integer millisecond (Python round, half to even, never
further than half a millisecond away) before the decomposition into
minutes, seconds and milliseconds. -/
theorem claimC1_format_time_msec :
    format_time_msec 12345 = "0000m12s345ms" ∧
    format_time_msec 0 = "0000m00s000ms" ∧
    format_time_msec 61999 = "0001m01s999ms" ∧
    (∀ msec : ℚ, |(pythonRound msec : ℚ) - msec| ≤ 1 / 2) ∧
    (∀ msec : ℚ, format_time_msec msec = format_time_msec ((pythonRound msec : ℤ) : ℚ)) := by
  refine ⟨by decide, by decide, by decide, pythonRound_le_half, ?_⟩
  intro msec
  unfold format_time_msec
  rw [pythonRound_intCast]

/-- Claim C2: step-backward while paused with frame_index above one, when
the re-seek succeeds, reopens the source, linearly decodes up to the
target frame (the new handle's cursor sits at target), replaces the
handle, and sets both the held frame and frame_index to the target
(the target frame is the one decoded last, at list offset target minus
one). -/
theorem claimC2_stepBackwardSuccess (env : Env) (s : St) (hp : s.paused = true)
    (h2 : 2 ≤ s.frame_index) (hopen : capOpens env = true)
    (hlen : s.frame_index - 1 ≤ env.frames.length) :
    handleA env s =
      ({ cap := ⟨env.frames, s.frame_index - 1, true⟩,
         frame := env.frames.getD (s.frame_index - 2) [],
         frame_index := s.frame_index - 1, paused := s.paused },
        createMsgs env ++ ["フレーム戻し: " ++ toString (s.frame_index - 1)]) := by
  rw [handleA_success env s hp h2 hopen hlen]
  norm_num [Nat.sub_sub]

theorem claimC2_witness :
    ((⟨⟨[[5], [6], [7]], 3, true⟩, [7], 3, true⟩ : St).paused = true) ∧
    (2 ≤ (⟨⟨[[5], [6], [7]], 3, true⟩, [7], 3, true⟩ : St).frame_index) ∧
    (capOpens ⟨false, false, true, [[5], [6], [7]], fun _ => 0, true⟩ = true) ∧
    ((⟨⟨[[5], [6], [7]], 3, true⟩, [7], 3, true⟩ : St).frame_index - 1 ≤
      (⟨false, false, true, [[5], [6], [7]], fun _ => 0, true⟩ : Env).frames.length) ∧
    handleA ⟨false, false, true, [[5], [6], [7]], fun _ => 0, true⟩
        ⟨⟨[[5], [6], [7]], 3, true⟩, [7], 3, true⟩ =
      (⟨⟨[[5], [6], [7]], 2, true⟩, [6], 2, true⟩, ["フレーム戻し: 2"]) := by
  refine ⟨by decide, by decide, by decide, by decide, ?_⟩
  rw [claimC2_stepBackwardSuccess
    ⟨false, false, true, [[5], [6], [7]], fun _ => 0, true⟩
    ⟨⟨[[5], [6], [7]], 3, true⟩, [7], 3, true⟩
    (by decide) (by decide) (by decide) (by decide)]
  decide

/-- Claim C3: from a consistent position N (cursor at N, held frame the
Nth frame), step-forward to frame N+1 followed by step-backward returns
to frame index N with a held frame byte-identical to the frame originally
held at N, since both are decoded from the same deterministic source. -/
theorem claimC3_roundTrip (env : Env) (s : St) (N : Nat)
    (hp : s.paused = true) (hidx : s.frame_index = N)
    (hcap : s.cap = ⟨env.frames, N, true⟩)
    (hframe : s.frame = env.frames.getD (N - 1) [])
    (hopen : capOpens env = true) (hN : 1 ≤ N) (hlt : N < env.frames.length) :
    (handleA env (handleD s).1).1.frame_index = N ∧
    (handleA env (handleD s).1).1.frame = s.frame := by
  have hread : s.cap.read = (some (env.frames.get ⟨N, hlt⟩), ⟨env.frames, N + 1, true⟩) := by
    rw [hcap]
    apply read_some
    · rfl
    · simp [List.getElem?_eq_getElem hlt]
  have hd := handleD_some s _ _ hp hread
  have h1 : (handleD s).1 =
      { s with
        cap := ⟨env.frames, N + 1, true⟩,
        frame := env.frames.get ⟨N, hlt⟩,
        frame_index := s.frame_index + 1 } := by rw [hd]
  rw [h1]
  have ha := handleA_success env
    { s with
      cap := ⟨env.frames, N + 1, true⟩,
      frame := env.frames.get ⟨N, hlt⟩,
      frame_index := s.frame_index + 1 }
    hp (by simp [hidx]; omega) (hopen) (by simp [hidx]; omega)
  rw [ha]
  have harith : s.frame_index + 1 - 1 - 1 = N - 1 := by omega
  constructor
  · simp [hidx]
  · simp only [harith]
    rw [hframe]

theorem claimC3_witness :
    ((⟨⟨[[1], [2], [3]], 2, true⟩, [2], 2, true⟩ : St).paused = true) ∧
    ((⟨⟨[[1], [2], [3]], 2, true⟩, [2], 2, true⟩ : St).frame_index = 2) ∧
    ((⟨⟨[[1], [2], [3]], 2, true⟩, [2], 2, true⟩ : St).cap = ⟨[[1], [2], [3]], 2, true⟩) ∧
    ((⟨⟨[[1], [2], [3]], 2, true⟩, [2], 2, true⟩ : St).frame =
      ([[1], [2], [3]] : List Frame).getD 1 []) ∧
    (capOpens ⟨false, false, true, [[1], [2], [3]], fun _ => 0, true⟩ = true) ∧
    ((handleA ⟨false, false, true, [[1], [2], [3]], fun _ => 0, true⟩
        (handleD ⟨⟨[[1], [2], [3]], 2, true⟩, [2], 2, true⟩).1).1.frame_index = 2 ∧
      (handleA ⟨false, false, true, [[1], [2], [3]], fun _ => 0, true⟩
        (handleD ⟨⟨[[1], [2], [3]], 2, true⟩, [2], 2, true⟩).1).1.frame =
        (⟨⟨[[1], [2], [3]], 2, true⟩, [2], 2, true⟩ : St).frame) := by
  refine ⟨by decide, by decide, by decide, by decide, by decide, ?_⟩
  exact claimC3_roundTrip ⟨false, false, true, [[1], [2], [3]], fun _ => 0, true⟩
    ⟨⟨[[1], [2], [3]], 2, true⟩, [2], 2, true⟩ 2
    (by decide) (by decide) (by decide) (by decide) (by decide) (by decide) (by decide)

/-- Claim C4: when step-backward is taken while paused with frame_index
above one and the reopen cannot produce an opened handle, or the
re-decode cannot reach the target index, the whole state (held frame,
frame_index, capture handle) is left unchanged and at least one failure
line is printed. -/
theorem claimC4_backwardFailureAtomic (env : Env) (s : St) (hp : s.paused = true)
    (h2 : 2 ≤ s.frame_index)
    (hfail : capOpens env = false ∨ env.frames.length < s.frame_index - 1) :
    (handleA env s).1 = s ∧ (handleA env s).2 ≠ [] := by
  cases ho : capOpens env with
  | false =>
    rw [handleA_fail env s _ hp h2 (reopen_fail_closed env _ ho)]
    exact ⟨rfl, by simp⟩
  | true =>
    have hshort : env.frames.length < s.frame_index - 1 := by
      rcases hfail with hno | hsh
      · rw [ho] at hno
        exact absurd hno (by simp)
      · exact hsh
    rw [handleA_fail env s _ hp h2 (reopen_fail_short env _ ho (by omega) hshort)]
    exact ⟨rfl, by simp⟩

theorem claimC4_witness :
    ((⟨⟨[[1], [2]], 2, true⟩, [2], 2, true⟩ : St).paused = true) ∧
    (2 ≤ (⟨⟨[[1], [2]], 2, true⟩, [2], 2, true⟩ : St).frame_index) ∧
    (capOpens ⟨false, false, false, [], fun _ => 0, true⟩ = false ∨
      (⟨false, false, false, [], fun _ => 0, true⟩ : Env).frames.length <
        (⟨⟨[[1], [2]], 2, true⟩, [2], 2, true⟩ : St).frame_index - 1) ∧
    ((handleA ⟨false, false, false, [], fun _ => 0, true⟩
        ⟨⟨[[1], [2]], 2, true⟩, [2], 2, true⟩).1 =
      ⟨⟨[[1], [2]], 2, true⟩, [2], 2, true⟩ ∧
      (handleA ⟨false, false, false, [], fun _ => 0, true⟩
        ⟨⟨[[1], [2]], 2, true⟩, [2], 2, true⟩).2 ≠ []) := by
  refine ⟨by decide, by decide, Or.inl (by decide), ?_⟩
  exact claimC4_backwardFailureAtomic ⟨false, false, false, [], fun _ => 0, true⟩
    ⟨⟨[[1], [2]], 2, true⟩, [2], 2, true⟩ (by decide) (by decide) (Or.inl (by decide))

/-- Claim C5: pressing step-backward while paused at frame_index one is a
no-op for every possible file environment (so no reopen can influence the
outcome): the loop continues with the state unchanged, nothing printed and
nothing written, and the key-a handler returns the state unchanged. -/
theorem claimC5_backwardAtFirstFrameNoop (env : Env) (ctx : Ctx) (s : St)
    (hp : s.paused = true) (h1 : s.frame_index = 1) :
    stepIter env ctx ⟨true, some Key.a⟩ s = .cont s [] [] ∧ handleA env s = (s, []) := by
  have ha := handleA_noop env s hp h1
  constructor
  · rw [stepIter_paused_dispatch env ctx (some Key.a) s hp]
    rw [ha]
  · exact ha

theorem claimC5_witness :
    ((⟨⟨[[1], [2]], 1, true⟩, [1], 1, true⟩ : St).paused = true) ∧
    ((⟨⟨[[1], [2]], 1, true⟩, [1], 1, true⟩ : St).frame_index = 1) ∧
    (stepIter ⟨true, true, true, [[9]], fun _ => 0, true⟩ ⟨"/w", "/v/a.mp4"⟩
        ⟨true, some Key.a⟩ ⟨⟨[[1], [2]], 1, true⟩, [1], 1, true⟩ =
      .cont ⟨⟨[[1], [2]], 1, true⟩, [1], 1, true⟩ [] [] ∧
      handleA ⟨true, true, true, [[9]], fun _ => 0, true⟩
        ⟨⟨[[1], [2]], 1, true⟩, [1], 1, true⟩ =
        (⟨⟨[[1], [2]], 1, true⟩, [1], 1, true⟩, [])) := by
  refine ⟨by decide, by decide, ?_⟩
  exact claimC5_backwardAtFirstFrameNoop ⟨true, true, true, [[9]], fun _ => 0, true⟩
    ⟨"/w", "/v/a.mp4"⟩ ⟨⟨[[1], [2]], 1, true⟩, [1], 1, true⟩ (by decide) (by decide)

/-- Claim C6: pressing step-forward while paused when the read yields no
frame prints the no-more-frames line, leaves the whole state (frame,
frame_index, handle) unchanged, and the loop continues rather than
terminating. -/
theorem claimC6_forwardAtEosNoop (env : Env) (ctx : Ctx) (s : St)
    (hp : s.paused = true) (heos : (s.cap.read).1 = none) :
    stepIter env ctx ⟨true, some Key.d⟩ s =
      .cont s ["これ以上先のフレームはありません。"] [] := by
  have hd := handleD_none s hp heos
  rw [stepIter_paused_dispatch env ctx (some Key.d) s hp]
  rw [hd]

theorem claimC6_witness :
    ((⟨⟨[[1]], 1, true⟩, [1], 1, true⟩ : St).paused = true) ∧
    (((⟨⟨[[1]], 1, true⟩, [1], 1, true⟩ : St).cap.read).1 = none) ∧
    stepIter ⟨false, false, true, [[1]], fun _ => 0, true⟩ ⟨"/w", "/v/a.mp4"⟩
        ⟨true, some Key.d⟩ ⟨⟨[[1]], 1, true⟩, [1], 1, true⟩ =
      .cont ⟨⟨[[1]], 1, true⟩, [1], 1, true⟩ ["これ以上先のフレームはありません。"] [] := by
  refine ⟨by decide, by decide, ?_⟩
  exact claimC6_forwardAtEosNoop ⟨false, false, true, [[1]], fun _ => 0, true⟩
    ⟨"/w", "/v/a.mp4"⟩ ⟨⟨[[1]], 1, true⟩, [1], 1, true⟩ (by decide) (by decide)

/-- Claim C8: create_capture never raises (it is a total function); the
label it reports is FFMPEG exactly when FFMPEG support was detected and
the explicit CAP_FFMPEG open succeeded, and DEFAULT in every other case;
and the handle it returns is opened exactly as the chosen open path
succeeded (in the fallback cases, as the default-backend open went). -/
theorem claimC8_backendFallbackLabel (env : Env) :
    ((create_capture env).2.1 = "FFMPEG" ↔
      env.hasFFmpeg = true ∧ env.ffmpegOpens = true) ∧
    ((create_capture env).2.1 = "FFMPEG" ∨ (create_capture env).2.1 = "DEFAULT") ∧
    (create_capture env).1.opened = capOpens env := by
  rw [create_capture_eq]
  unfold backendLabel capOpens
  cases h1 : env.hasFFmpeg <;> cases h2 : env.ffmpegOpens <;> simp

/-- Claim C10: pressing step-backward or step-forward while the player is
not paused leaves the playback state untouched by the key handler: the
key-a handler (for every file environment) and the key-d handler both
return the state unchanged with nothing printed. -/
theorem claimC10_stepKeysIgnoredWhilePlaying (env : Env) (s : St)
    (hp : s.paused = false) :
    handleA env s = (s, []) ∧ handleD s = (s, []) :=
  handlers_skip_unpaused env s hp

theorem claimC10_witness :
    ((⟨⟨[[1], [2]], 1, true⟩, [1], 1, false⟩ : St).paused = false) ∧
    (handleA ⟨true, true, true, [[7], [8]], fun _ => 0, true⟩
        ⟨⟨[[1], [2]], 1, true⟩, [1], 1, false⟩ =
      (⟨⟨[[1], [2]], 1, true⟩, [1], 1, false⟩, []) ∧
      handleD ⟨⟨[[1], [2]], 1, true⟩, [1], 1, false⟩ =
        (⟨⟨[[1], [2]], 1, true⟩, [1], 1, false⟩, [])) := by
  refine ⟨by decide, ?_⟩
  exact claimC10_stepKeysIgnoredWhilePlaying ⟨true, true, true, [[7], [8]], fun _ => 0, true⟩
    ⟨⟨[[1], [2]], 1, true⟩, [1], 1, false⟩ (by decide)

theorem runMain_ok_eq (se : SetupEnv) (ctx : Ctx) (inputs : List Input) (st : St)
    (h : mainSetup se = .ok st) :
    runMain se ctx inputs = runLoop se.env ctx inputs st := by
  unfold runMain
  rw [h]

/-- Claim C9: over every start-up environment and input sequence, the
process exits with status 1 exactly when one of the fatal set-up errors
occurred (no file selected or path not found, no backend able to open the
file, first frame undecodable); otherwise a run that ends — by the quit
key or by the window being closed (end-of-stream while playing likewise
breaks the loop) — exits with status 0. -/
theorem claimC9_exitCodes (se : SetupEnv) (ctx : Ctx) (inputs : List Input) :
    (runMain se ctx inputs = some 1 ↔ fatalB se = true) ∧
    runMain se ctx (inputs ++ [⟨true, some Key.q⟩]) =
      some (if fatalB se then 1 else 0) ∧
    runMain se ctx (inputs ++ [⟨false, none⟩]) =
      some (if fatalB se then 1 else 0) := by
  cases hf : fatalB se with
  | true =>
    have herr := mainSetup_fatal se hf
    unfold runMain
    rw [herr]
    simp
  | false =>
    have hok := mainSetup_ok se hf
    refine ⟨?_, ?_, ?_⟩
    · constructor
      · intro hrun
        rw [runMain_ok_eq se ctx inputs _ hok] at hrun
        rcases runLoop_zero_or_none se.env ctx inputs
            ⟨⟨se.env.frames, 1, true⟩, se.env.frames.getD 0 [], 1, true⟩ with h | h <;>
          rw [h] at hrun <;> simp at hrun
      · intro h
        simp at h
    · rw [runMain_ok_eq se ctx _ _ hok]
      exact runLoop_append_halt se.env ctx _ (fun s => stepIter_q_halts se.env ctx s) inputs _
    · rw [runMain_ok_eq se ctx _ _ hok]
      exact runLoop_append_halt se.env ctx _
        (fun s => ⟨_, stepIter_invisible se.env ctx none s⟩) inputs _

/-- Claim C7 (counterexample): at the timestamp of exactly ten thousand
minutes (600000000 ms) the snapshot taken while paused is written with a
five-digit minutes field, so its name does not match the documented
four-digit pattern; the claim as stated (for every timestamp value) is
therefore false. -/
theorem claimC7_counterexample :
    stepIter ⟨false, false, true, [[1], [2]], fun _ => 600000000, true⟩
        ⟨"/work", "/videos/video.mp4"⟩ ⟨true, some Key.snap⟩
        ⟨⟨[[1], [2]], 1, true⟩, [1], 1, true⟩ =
      .cont ⟨⟨[[1], [2]], 1, true⟩, [1], 1, true⟩
        ["スナップショット保存: /videos/snapshots/video_10000m00s000ms_000001.png"]
        ["/videos/snapshots/video_10000m00s000ms_000001.png"] ∧
    matchesSnapshotPattern ("video") ("video_10000m00s000ms_000001.png") = false := by
  constructor
  · decide
  · decide

/-- Claim C7 (amended): every snapshot taken while paused is written into
the snapshots subdirectory next to the source video, under the name built
from the video base name, the formatted timestamp and the six-digit frame
index; and that name matches the documented fixed-width pattern whenever
the rounded timestamp is nonnegative and below ten thousand minutes and
the frame index is below one million (beyond those bounds the fields
widen and the pattern no longer applies). -/
theorem claimC7_snapshotNamePattern (env : Env) (ctx : Ctx) (s : St)
    (hsave : env.saveOk = true) (hp : s.paused = true)
    (h0 : 0 ≤ pythonRound (env.posMsec s.cap.pos))
    (hm : pythonRound (env.posMsec s.cap.pos) < 600000000)
    (hi : s.frame_index < 1000000) :
    stepIter env ctx ⟨true, some Key.snap⟩ s =
      .cont s
        ["スナップショット保存: " ++ joinPath (outputDir ctx)
            (snapshotFilename (baseName ctx)
              (format_time_msec (env.posMsec s.cap.pos)) s.frame_index)]
        [joinPath (outputDir ctx)
          (snapshotFilename (baseName ctx)
            (format_time_msec (env.posMsec s.cap.pos)) s.frame_index)] ∧
    matchesSnapshotPattern (baseName ctx)
      (snapshotFilename (baseName ctx)
        (format_time_msec (env.posMsec s.cap.pos)) s.frame_index) = true := by
  constructor
  · rw [stepIter_paused_dispatch env ctx (some Key.snap) s hp]
    simp [hsave]
  · exact pattern_of_bounds (baseName ctx) (env.posMsec s.cap.pos) s.frame_index h0 hm hi

theorem claimC7_witness :
    ((⟨false, false, true, [[1], [2]], fun _ => 12345, true⟩ : Env).saveOk = true) ∧
    ((⟨⟨[[1], [2]], 1, true⟩, [1], 1, true⟩ : St).paused = true) ∧
    (0 ≤ pythonRound ((12345 : ℚ))) ∧
    (pythonRound ((12345 : ℚ)) < 600000000) ∧
    ((⟨⟨[[1], [2]], 1, true⟩, [1], 1, true⟩ : St).frame_index < 1000000) ∧
    (stepIter ⟨false, false, true, [[1], [2]], fun _ => 12345, true⟩
        ⟨"/work", "/videos/video.mp4"⟩ ⟨true, some Key.snap⟩
        ⟨⟨[[1], [2]], 1, true⟩, [1], 1, true⟩ =
      .cont ⟨⟨[[1], [2]], 1, true⟩, [1], 1, true⟩
        ["スナップショット保存: /videos/snapshots/video_0000m12s345ms_000001.png"]
        ["/videos/snapshots/video_0000m12s345ms_000001.png"] ∧
      matchesSnapshotPattern ("video") ("video_0000m12s345ms_000001.png") = true) := by
  refine ⟨by decide, by decide, by decide, by decide, by decide, ?_⟩
  have h := claimC7_snapshotNamePattern
    ⟨false, false, true, [[1], [2]], fun _ => 12345, true⟩
    ⟨"/work", "/videos/video.mp4"⟩
    ⟨⟨[[1], [2]], 1, true⟩, [1], 1, true⟩
    (by decide) (by decide) (by decide) (by decide) (by decide)
  obtain ⟨h1, h2⟩ := h
  constructor
  · rw [h1]
    decide
  · rw [← h2]
    decide
